import Mathlib

/-!
Shallow embedding of the Source Routing & Adapter Dispatch layer of the
confluence-agent repository (src/router.py and src/adapters/*), together
with theorems settling the specification claims about it.

External effects (file system, HTTP fetches, search providers, the yt-dlp
subprocess) are modelled as explicit environment records of pure functions;
the code path of every adapter is translated from the Python source.
-/

set_option maxRecDepth 4000

namespace CAgent

/-! ## String primitives

Character-list versions of the string operations the Python code uses
(`startswith`, `in` substring test, slicing, `lower`, `join`), so that
everything reduces in the kernel and connects to the Mathlib list lemmas. -/

/-- Boolean prefix test on character lists (Python `str.startswith`). -/
def listPre : List Char → List Char → Bool
  | [], _ => true
  | _ :: _, [] => false
  | a :: as, b :: bs => (a == b) && listPre as bs

/-- Boolean substring test on character lists (Python `in`). -/
def listSub : List Char → List Char → Bool
  | p, [] => listPre p []
  | p, c :: cs => listPre p (c :: cs) || listSub p cs

/-- `strStarts s p` is Python `s.startswith(p)`. -/
def strStarts (s p : String) : Bool := listPre p.data s.data

/-- `containsSub s p` is Python `p in s`. -/
def containsSub (s p : String) : Bool := listSub p.data s.data

/-- `strEnds s p` is Python `s.endswith(p)`. -/
def strEnds (s p : String) : Bool := listPre p.data.reverse s.data.reverse

/-- Python slice `s[:n]` (character based). -/
def strTake (s : String) (n : Nat) : String := String.mk (s.data.take n)

/-- Python slice `s[n:]` (character based). -/
def strDrop (s : String) (n : Nat) : String := String.mk (s.data.drop n)

/-- ASCII lower-casing of one character, as Python `str.lower` acts on the
ASCII inputs the adapters compare against. -/
def lowerChar (c : Char) : Char :=
  if 'A' ≤ c ∧ c ≤ 'Z' then Char.ofNat (c.toNat + 32) else c

/-- Python `s.lower()` (ASCII fragment). -/
def strLower (s : String) : String := String.mk (s.data.map lowerChar)

/-- Python `sep.join(parts)`. -/
def joinSep (sep : String) : List String → String
  | [] => ""
  | [t] => t
  | t :: t2 :: ts => t ++ sep ++ joinSep sep (t2 :: ts)

/-- The ASCII whitespace Python `str.strip()` removes. -/
def isSpaceChar (c : Char) : Bool :=
  c == ' ' || c == '\t' || c == '\n' || c == '\r' || c == '\x0b' || c == '\x0c'

/-- Python `s.strip()`. -/
def strTrim (s : String) : String :=
  String.mk (((s.data.dropWhile isSpaceChar).reverse.dropWhile isSpaceChar).reverse)

theorem listPre_iff (p l : List Char) : listPre p l = true ↔ p <+: l := by
  induction p generalizing l with
  | nil => simp [listPre, List.nil_prefix]
  | cons a as ih =>
    cases l with
    | nil =>
      simp only [listPre]
      constructor
      · intro h; exact absurd h (by simp)
      · rintro ⟨t, ht⟩; simp at ht
    | cons b bs =>
      simp only [listPre, Bool.and_eq_true, beq_iff_eq]
      constructor
      · rintro ⟨rfl, h⟩
        obtain ⟨t, rfl⟩ := (ih bs).mp h
        exact ⟨t, rfl⟩
      · rintro ⟨t, ht⟩
        obtain ⟨rfl, rfl⟩ : a = b ∧ as ++ t = bs := by
          constructor
          · exact (List.cons.injEq _ _ _ _ ▸ ht).1
          · exact (List.cons.injEq _ _ _ _ ▸ ht).2
        exact ⟨rfl, (ih _).mpr ⟨t, rfl⟩⟩

theorem listSub_iff (p l : List Char) : listSub p l = true ↔ p <:+: l := by
  induction l with
  | nil =>
    simp only [listSub]
    rw [listPre_iff]
    constructor
    · rintro ⟨t, ht⟩
      simp at ht
      simp [ht.1]
    · rintro ⟨s, t, h⟩
      rcases List.append_eq_nil.mp h with ⟨h1, h2⟩
      rcases List.append_eq_nil.mp h1 with ⟨_, rfl⟩
      exact ⟨[], by simp⟩
  | cons c cs ih =>
    simp only [listSub, Bool.or_eq_true]
    rw [listPre_iff, ih]
    constructor
    · rintro (h | h)
      · exact h.isInfix
      · exact h.trans (List.infix_cons_iff.mpr (Or.inr (List.infix_refl cs)))
    · intro h
      rcases List.infix_cons_iff.mp h with h | h
      · exact Or.inl h
      · exact Or.inr h

theorem containsSub_mono (s p q : String) (hpq : listPre p.data q.data = true)
    (h : containsSub s q = true) : containsSub s p = true := by
  unfold containsSub at *
  rw [listSub_iff] at *
  exact ((listPre_iff _ _).mp hpq).isInfix.trans h

theorem strData_append (s t : String) : (s ++ t).data = s.data ++ t.data := by
  cases s; cases t; rfl

theorem containsSub_middle (a m b : String) : containsSub (a ++ m ++ b) m = true := by
  unfold containsSub
  rw [listSub_iff]
  exact ⟨a.data, b.data, by simp [strData_append]⟩

theorem containsSub_right (a m : String) : containsSub (a ++ m) m = true := by
  unfold containsSub
  rw [listSub_iff]
  exact ⟨a.data, [], by simp [strData_append]⟩

/-! ## Data model: the Content Envelope and errors (adapters/base.py) -/

/-- A metadata value in the open `metadata` mapping of the envelope. -/
inductive MetaVal where
  | s (v : String)
  | n (v : Nat)
  | null
deriving DecidableEq, Repr

/-- `SourceContent` of adapters/base.py: the normalized extraction result. -/
structure SourceContent where
  text : String
  title : String
  source_url : String
  source_type : String
  metadata : List (String × MetaVal)
deriving DecidableEq, Repr

/-- The Python exception families the adapter layer raises. -/
inductive ExtractErr where
  | valueError (msg : String)
  | fileNotFound (msg : String)
  | importErr (msg : String)
  | connError (msg : String)
deriving DecidableEq, Repr

/-- An adapter as the Router sees it: the `BaseAdapter` interface, with the
behavior of `extract` (including all its external effects) given as a
function from the source string to a result. -/
structure Adapter where
  name : String
  can_handle : String → Bool
  extract : String → Except ExtractErr SourceContent

/-! ## LocalFileAdapter (adapters/local_file.py)

`os.path.splitext` / `os.path.basename` are modelled on POSIX paths, and the
file system as an environment of pure functions: `files` is the set of paths
for which `os.path.isfile` answers true, `dirs` the extra paths for which
`os.path.exists` answers true, and the four readers give the text each
format-specific reader would produce (a reader failure, including a missing
optional library, is an `Except.error`).  A raw `open(..., errors="ignore")
.read()` never fails, so `rawRead` is total. -/

/-- Characters of the basename: everything after the last `/`. -/
def afterLastSlash (cs : List Char) : List Char :=
  cs.foldl (fun acc c => if c = '/' then [] else acc ++ [c]) []

/-- Split a basename at its last dot: `some (before, dot-suffix)`. -/
def splitLastDot : List Char → Option (List Char × List Char)
  | [] => none
  | c :: cs =>
    match splitLastDot cs with
    | some (p, suf) => some (c :: p, suf)
    | none => if c = '.' then some ([], '.' :: cs) else none

/-- The extension part of `os.path.splitext`: the suffix from the last dot of
the basename, empty when the basename has no dot or only leading dots. -/
def extOf (s : String) : String :=
  let b := afterLastSlash s.data
  match splitLastDot b with
  | none => ""
  | some (p, suf) => if p.any (fun c => c ≠ '.') then String.mk suf else ""

/-- `os.path.basename` on POSIX paths. -/
def basenameStr (s : String) : String := String.mk (afterLastSlash s.data)

/-- `LocalFileAdapter._EXTENSIONS`. -/
def localExtensions : List String :=
  [".pdf", ".docx", ".doc", ".txt", ".md", ".rst", ".csv", ".xlsx"]

/-- File-system and format-reader environment for LocalFileAdapter. -/
structure LocalEnv where
  files : List String
  dirs : List String
  rawRead : String → String
  pdfRead : String → Except ExtractErr String
  docxRead : String → Except ExtractErr String
  tableRead : String → String → Except ExtractErr String
  abspath : String → String

/-- `LocalFileAdapter.can_handle`: not an `http(s)` URL, and either a
recognized extension of the lowered source or an existing file. -/
def lf_can_handle (env : LocalEnv) (source : String) : Bool :=
  if strStarts source "http://" || strStarts source "https://" then false
  else decide (extOf (strLower source) ∈ localExtensions) || decide (source ∈ env.files)

/-- `LocalFileAdapter.extract`: missing-file check, then dispatch by
extension to the PDF / Word / tabular readers or a raw text read. -/
def lf_extract (env : LocalEnv) (source : String) : Except ExtractErr SourceContent :=
  if ¬ (source ∈ env.files ∨ source ∈ env.dirs) then
    Except.error (ExtractErr.fileNotFound ("File not found: " ++ source))
  else
    let ext := extOf (strLower source)
    let title := basenameStr source
    let textE : Except ExtractErr String :=
      if ext = ".pdf" then env.pdfRead source
      else if ext = ".docx" ∨ ext = ".doc" then env.docxRead source
      else if ext = ".xlsx" ∨ ext = ".csv" then env.tableRead source ext
      else Except.ok (env.rawRead source)
    match textE with
    | Except.error e => Except.error e
    | Except.ok text =>
      Except.ok (SourceContent.mk text title ("file://" ++ env.abspath source) "local_file" [])

/-! ## WebAdapter (adapters/web.py)

The fetch (either the trafilatura `fetch_url` or the proxied httpx path — both
return a string or a falsy value on failure) and the trafilatura `extract` /
`extract_metadata` are the environment.  TLS-verification and proxy policy
are construction-time configuration folded into the behavior of `fetch`. -/

structure WebEnv where
  hasTrafilatura : Bool
  fetch : String → Option String
  trafExtract : String → Option String
  trafTitle : String → Option String

/-- `WebAdapter.can_handle`: an `http(s)` URL not matching the excluded
YouTube / Drive / SharePoint / OneDrive patterns. -/
def web_can_handle (source : String) : Bool :=
  (strStarts source "http://" || strStarts source "https://") &&
    !(containsSub source "youtube.com" || containsSub source "youtu.be" ||
      containsSub source "drive.google" || containsSub source "sharepoint" ||
      containsSub source "onedrive")

/-- `WebAdapter.extract`: fetch, fail on a falsy download, boilerplate-strip,
fail on falsy text, recover a title from page metadata with the source as
fallback. -/
def web_extract (env : WebEnv) (source : String) : Except ExtractErr SourceContent :=
  if ¬ env.hasTrafilatura then Except.error (ExtractErr.importErr "pip install trafilatura")
  else
    match env.fetch source with
    | none => Except.error (ExtractErr.valueError ("Failed to fetch: " ++ source))
    | some downloaded =>
      if downloaded = "" then Except.error (ExtractErr.valueError ("Failed to fetch: " ++ source))
      else
        match env.trafExtract downloaded with
        | none => Except.error (ExtractErr.valueError ("No content extracted from: " ++ source))
        | some text =>
          if text = "" then
            Except.error (ExtractErr.valueError ("No content extracted from: " ++ source))
          else
            let title :=
              match env.trafTitle downloaded with
              | some t => if t = "" then source else t
              | none => source
            Except.ok (SourceContent.mk text title source "web" [])

/-! ## WebSearchAdapter (adapters/web_search.py)

The three search providers are environment functions returning the ordered
URL list (or the error their HTTP/DDG call raises); the scraper is the
own `WebAdapter` instance of the adapter, so its behavior is a `WebEnv`. -/

structure SearchEnv where
  provider : String
  api_key : String
  cx_id : String
  max_results : Nat
  webEnv : WebEnv
  googleSearch : String → Except ExtractErr (List String)
  braveSearch : String → Except ExtractErr (List String)
  ddgSearch : String → Except ExtractErr (List String)

/-- `WebSearchAdapter.can_handle`: lowered source starts with `search:`. -/
def ws_can_handle (source : String) : Bool := strStarts (strLower source) "search:"

/-- `WebSearchAdapter._search`: configured provider with a present API key,
else the DuckDuckGo fallback. -/
def ws_search (env : SearchEnv) (query : String) : Except ExtractErr (List String) :=
  if env.provider = "google" ∧ env.api_key ≠ "" then env.googleSearch query
  else if env.provider = "brave" ∧ env.api_key ≠ "" then env.braveSearch query
  else env.ddgSearch query

/-- The per-result block appended for one successful scrape:
`f"[{content.title}]\n{content.source_url}\n{content.text[:3000]}"`. -/
def scrapeBlock (c : SourceContent) : String :=
  "[" ++ c.title ++ "]\n" ++ c.source_url ++ "\n" ++ strTake c.text 3000

/-- The scrape loop over the capped URL list: a failing scrape is skipped. -/
def scrapeLoop (env : SearchEnv) : List String → List String
  | [] => []
  | url :: rest =>
    match web_extract env.webEnv url with
    | Except.ok c => scrapeBlock c :: scrapeLoop env rest
    | Except.error _ => scrapeLoop env rest

/-- `WebSearchAdapter.extract`. -/
def ws_extract (env : SearchEnv) (source : String) : Except ExtractErr SourceContent :=
  let query := strTrim (strDrop source 7)
  match ws_search env query with
  | Except.error e => Except.error e
  | Except.ok urls =>
    let texts := scrapeLoop env (urls.take env.max_results)
    if texts = [] then Except.error (ExtractErr.valueError ("No results found for: " ++ query))
    else
      Except.ok (SourceContent.mk (joinSep "\n\n---\n\n" texts) ("검색: " ++ query)
        ("search:" ++ query) "web_search"
        [("query", MetaVal.s query), ("results_count", MetaVal.n texts.length)])

/-! ## YouTubeAdapter (adapters/youtube.py)

The two yt-dlp invocations are the environment: `infoResult` is the parsed
JSON of the metadata call (`none` when the call exits non-zero), `subFiles`
the scratch-directory listing after the subtitle call, and `vttLines` the
lines of a subtitle file found there. -/

/-- The fields of the yt-dlp metadata JSON the adapter reads. -/
structure VideoInfo where
  title : Option String
  duration : MetaVal
  channel : MetaVal
  upload_date : MetaVal
deriving DecidableEq, Repr

structure YtEnv where
  infoResult : String → Option VideoInfo
  subFiles : String → List String
  vttLines : String → String → List String

/-- `YouTubeAdapter._YT_PATTERN` searched anywhere in the source (the
regex is an alternation of the three literal fragments). -/
def yt_can_handle (source : String) : Bool :=
  containsSub source "youtube.com/watch?v=" || containsSub source "youtu.be/" ||
    containsSub source "youtube.com/shorts/"

/-- `YouTubeAdapter._get_info`: on a non-zero exit the adapter substitutes
the dictionary containing only `title = url`. -/
def yt_get_info (env : YtEnv) (url : String) : VideoInfo :=
  match env.infoResult url with
  | none => VideoInfo.mk (some url) MetaVal.null MetaVal.null MetaVal.null
  | some v => v

/-- One pass of `re.sub(r"<[^>]+>", "", line)`: the second argument buffers
a pending `<`-opened span until a `>` closes it (a `<>` with nothing between
is not a match, and an unclosed `<...` is emitted verbatim at end of line). -/
def stripTagsGo : Option (List Char) → List Char → List Char
  | none, [] => []
  | some buf, [] => buf
  | none, c :: cs => if c = '<' then stripTagsGo (some ['<']) cs else c :: stripTagsGo none cs
  | some buf, c :: cs =>
    if c = '>' then
      if buf = ['<'] then '<' :: '>' :: stripTagsGo none cs
      else stripTagsGo none cs
    else stripTagsGo (some (buf ++ [c])) cs

/-- HTML-tag removal used by `_parse_vtt`. -/
def stripTags (s : String) : String := String.mk (stripTagsGo none s.data)

/-- The skip test of `_parse_vtt`: blank lines, timestamp lines and the
three header shapes. -/
def skipLine (line : String) : Bool :=
  (line == "") || containsSub line "-->" || strStarts line "WEBVTT" ||
    strStarts line "Kind:" || strStarts line "Language:"

/-- The `_parse_vtt` loop with its `seen` set. -/
def parseVttAux (seen : List String) : List String → List String
  | [] => []
  | l :: ls =>
    let line := strTrim l
    if skipLine line then parseVttAux seen ls
    else
      let clean := stripTags line
      if clean ≠ "" ∧ clean ∉ seen then clean :: parseVttAux (clean :: seen) ls
      else parseVttAux seen ls

/-- `YouTubeAdapter._parse_vtt` on the lines of the file. -/
def parse_vtt (lines : List String) : String := joinSep "\n" (parseVttAux [] lines)

/-- `YouTubeAdapter._get_subtitles`: the first `.vtt` file materialized in
the scratch directory is parsed; with none the extraction fails. -/
def yt_get_subtitles (env : YtEnv) (url : String) : Except ExtractErr String :=
  match (env.subFiles url).find? (fun f => strEnds f ".vtt") with
  | some f => Except.ok (parse_vtt (env.vttLines url f))
  | none => Except.error (ExtractErr.valueError ("No subtitles found for: " ++ url))

/-- `YouTubeAdapter.extract`. -/
def yt_extract (env : YtEnv) (source : String) : Except ExtractErr SourceContent :=
  let info := yt_get_info env source
  let title := match info.title with | some t => t | none => source
  match yt_get_subtitles env source with
  | Except.error e => Except.error e
  | Except.ok text =>
    Except.ok (SourceContent.mk text title source "youtube"
      [("duration", info.duration), ("channel", info.channel),
       ("upload_date", info.upload_date)])

/-! ## SourceRouter (router.py) -/

/-- The probe loop: first registered adapter whose `can_handle` accepts. -/
def firstMatch : List Adapter → String → Option Adapter
  | [], _ => none
  | a :: rest, s => if a.can_handle s then some a else firstMatch rest s

/-- The prefix tuple of the fallback heuristic in `SourceRouter.extract`. -/
def startsKnownShape (s : String) : Bool :=
  strStarts s "http://" || strStarts s "https://" || strStarts s "search:" ||
    strStarts s "/" || strStarts s "C:\\" || strStarts s "D:\\"

/-- The no-adapter `ValueError` message, enumerating registered names. -/
def noAdapterMsg (adapters : List Adapter) (source : String) : String :=
  "No adapter found for source: " ++ source ++ "\nAvailable adapters: [" ++
    joinSep ", " (adapters.map (fun a => a.name)) ++
    "]\nTip: Use search: for web search, or provide a URL or file path"

/-- `SourceRouter.extract`: probe, fallback-to-search rewrite, no-match error. -/
def routerExtract (adapters : List Adapter) (source : String) :
    Except ExtractErr SourceContent :=
  match firstMatch adapters source with
  | some a => a.extract source
  | none =>
    if startsKnownShape source = false then
      match firstMatch adapters ("search:" ++ source) with
      | some a => a.extract ("search:" ++ source)
      | none => Except.error (ExtractErr.valueError (noAdapterMsg adapters source))
    else Except.error (ExtractErr.valueError (noAdapterMsg adapters source))

/-- `SourceRouter.extract_many`: the sequential loop, aborting on the first
failing source. -/
def extract_many (adapters : List Adapter) : List String → Except ExtractErr (List SourceContent)
  | [] => Except.ok []
  | s :: rest =>
    match routerExtract adapters s with
    | Except.error e => Except.error e
    | Except.ok c =>
      match extract_many adapters rest with
      | Except.error e => Except.error e
      | Except.ok cs => Except.ok (c :: cs)

/-- `BUILTIN_ADAPTERS` in registration order:
WebSearch, Web, YouTube, LocalFile. -/
def builtins (se : SearchEnv) (we : WebEnv) (ye : YtEnv) (le : LocalEnv) : List Adapter :=
  [Adapter.mk "web_search" ws_can_handle (ws_extract se),
   Adapter.mk "web" web_can_handle (web_extract we),
   Adapter.mk "youtube" yt_can_handle (yt_extract ye),
   Adapter.mk "local_file" (lf_can_handle le) (lf_extract le)]

/-! ## Concrete stub environments

Deterministic stand-ins for the external world, used to instantiate the
theorems at concrete inputs. -/

/-- A web environment where every URL except `u2` fetches to itself and
extracts to itself; `u2` fails to fetch. -/
def genericWebEnv : WebEnv :=
  WebEnv.mk true (fun u => if u == "u2" then none else some u)
    (fun d => some d) (fun d => some d)

/-- DuckDuckGo stub returning a single URL for any query. -/
def stubSE : SearchEnv :=
  SearchEnv.mk "duckduckgo" "" "" 3 genericWebEnv
    (fun _ => Except.error (ExtractErr.valueError "google off"))
    (fun _ => Except.error (ExtractErr.valueError "brave off"))
    (fun _ => Except.ok ["u1"])

/-- Search environment for the five-URL scenario of the WebSearch claim. -/
def fiveUrlSE : SearchEnv :=
  SearchEnv.mk "duckduckgo" "" "" 3 genericWebEnv
    (fun _ => Except.error (ExtractErr.valueError "google off"))
    (fun _ => Except.error (ExtractErr.valueError "brave off"))
    (fun _ => Except.ok ["u1", "u2", "u3", "u4", "u5"])

/-- A YouTube environment where both yt-dlp invocations come back empty. -/
def stubYE : YtEnv := YtEnv.mk (fun _ => none) (fun _ => []) (fun _ _ => [])

/-- A YouTube environment with failing metadata and no `.vtt` among the
subtitle files. -/
def noVttYE : YtEnv :=
  YtEnv.mk (fun _ => none) (fun _ => ["subs.srt", "subs.txt"]) (fun _ _ => [])

/-- A YouTube environment with failing metadata but a usable `.vtt` file. -/
def autoSubYE : YtEnv :=
  YtEnv.mk (fun _ => none) (fun _ => ["subs.ko.vtt"])
    (fun _ _ => ["WEBVTT", "", "00:00 --> 00:02", "<i>hello</i>", "hello", "world"])

/-- An empty file system. -/
def stubLE : LocalEnv :=
  LocalEnv.mk [] [] (fun _ => "")
    (fun _ => Except.error (ExtractErr.importErr "pip install pymupdf or pypdf"))
    (fun _ => Except.error (ExtractErr.importErr "pip install python-docx"))
    (fun _ _ => Except.error (ExtractErr.importErr "pip install pandas openpyxl"))
    (fun s => s)

/-- A file system holding one empty text file. -/
def emptyFileLE : LocalEnv :=
  LocalEnv.mk ["empty.txt"] [] (fun _ => "")
    (fun _ => Except.error (ExtractErr.importErr "pip install pymupdf or pypdf"))
    (fun _ => Except.error (ExtractErr.importErr "pip install python-docx"))
    (fun _ _ => Except.error (ExtractErr.importErr "pip install pandas openpyxl"))
    (fun s => s)

/-- A file system holding an (extension-less) file named `notes`. -/
def notesLE : LocalEnv :=
  LocalEnv.mk ["notes"] [] (fun _ => "note body")
    (fun _ => Except.error (ExtractErr.importErr "pip install pymupdf or pypdf"))
    (fun _ => Except.error (ExtractErr.importErr "pip install python-docx"))
    (fun _ _ => Except.error (ExtractErr.importErr "pip install pandas openpyxl"))
    (fun s => s)

/-- A file system where `os.path.isfile` answers true for a path that
begins with `http://` (realizable through a directory literally named
`http:`). -/
def httpFileLE : LocalEnv :=
  LocalEnv.mk ["http://srv/f"] [] (fun _ => "raw bytes")
    (fun _ => Except.error (ExtractErr.importErr "pip install pymupdf or pypdf"))
    (fun _ => Except.error (ExtractErr.importErr "pip install python-docx"))
    (fun _ _ => Except.error (ExtractErr.importErr "pip install pandas openpyxl"))
    (fun s => s)

/-- An adapter that accepts nothing. -/
def noneA : Adapter :=
  Adapter.mk "none" (fun _ => false) (fun _ => Except.error (ExtractErr.valueError "unused"))

/-- An adapter that accepts exactly the sources starting with `ok`. -/
def okA : Adapter :=
  Adapter.mk "ok" (fun s => strStarts s "ok")
    (fun s => Except.ok (SourceContent.mk ("T" ++ s) "" s "stub" []))

/-! ## Router lemmas -/

theorem firstMatch_none (adapters : List Adapter) (s : String)
    (h : ∀ a ∈ adapters, a.can_handle s = false) : firstMatch adapters s = none := by
  induction adapters with
  | nil => rfl
  | cons a rest ih =>
    have ha := h a (by simp)
    simp [firstMatch, ha]
    exact ih (fun b hb => h b (by simp [hb]))

theorem firstMatch_eq_filterHead (adapters : List Adapter) (t : String) :
    firstMatch adapters t = (adapters.filter (fun a => a.can_handle t)).head? := by
  induction adapters with
  | nil => rfl
  | cons a rest ih =>
    by_cases h : a.can_handle t
    · simp [firstMatch, h, List.filter_cons]
    · simp [firstMatch, h, List.filter_cons, ih]

theorem mem_joinSep_infix (sep : String) (l : List String) (x : String) (hx : x ∈ l) :
    containsSub (joinSep sep l) x = true := by
  induction l with
  | nil => simp at hx
  | cons y ys ih =>
    rcases List.mem_cons.mp hx with rfl | hmem
    · cases ys with
      | nil =>
        unfold containsSub
        rw [listSub_iff]
        exact ⟨[], [], by simp [joinSep]⟩
      | cons z zs =>
        unfold containsSub
        rw [listSub_iff]
        exact ⟨[], (sep ++ joinSep sep (z :: zs)).data, by
          simp [joinSep, strData_append]⟩
    · cases ys with
      | nil => simp at hmem
      | cons z zs =>
        have hrec := ih hmem
        unfold containsSub at hrec ⊢
        rw [listSub_iff] at hrec ⊢
        refine hrec.trans ?_
        exact ⟨(y ++ sep).data, [], by simp [joinSep, strData_append]⟩

theorem name_in_noAdapterMsg (adapters : List Adapter) (s : String)
    (a : Adapter) (ha : a ∈ adapters) :
    containsSub (noAdapterMsg adapters s) a.name = true := by
  have h1 : containsSub (joinSep ", " (adapters.map (fun a => a.name))) a.name = true :=
    mem_joinSep_infix _ _ _ (List.mem_map.mpr ⟨a, ha, rfl⟩)
  unfold noAdapterMsg
  unfold containsSub at h1 ⊢
  rw [listSub_iff] at h1 ⊢
  refine h1.trans ?_
  refine ⟨("No adapter found for source: " ++ s ++ "\nAvailable adapters: [").data,
    ("]\nTip: Use search: for web search, or provide a URL or file path").data, ?_⟩
  simp [strData_append]

/-! ## Claim C1 — fallback-to-search and the no-adapter error -/

/-- Claim C1: when the `can_handle` of no registered adapter accepts a source,
`SourceRouter.extract` rewrites it to `search:` + source and re-probes the
adapters in registration order (delegating to the first acceptor of the
rewritten string) exactly when the source starts with none of `http://`,
`https://`, `search:`, `/`, `C:\`, `D:\`; otherwise, or when the rewritten
string is not accepted either, it raises the no-adapter `ValueError` whose
message enumerates the name of every registered adapter. -/
theorem claim_C1_router_fallback (adapters : List Adapter) (s : String)
    (h : ∀ a ∈ adapters, a.can_handle s = false) :
    (startsKnownShape s = false →
      routerExtract adapters s =
        match firstMatch adapters ("search:" ++ s) with
        | some a => a.extract ("search:" ++ s)
        | none => Except.error (ExtractErr.valueError (noAdapterMsg adapters s)))
    ∧ (startsKnownShape s = true →
      routerExtract adapters s = Except.error (ExtractErr.valueError (noAdapterMsg adapters s)))
    ∧ (∀ t, firstMatch adapters t = (adapters.filter (fun a => a.can_handle t)).head?)
    ∧ (∀ a ∈ adapters, containsSub (noAdapterMsg adapters s) a.name = true) := by
  have hfm := firstMatch_none adapters s h
  refine ⟨?_, ?_, firstMatch_eq_filterHead adapters,
    fun a ha => name_in_noAdapterMsg adapters s a ha⟩
  · intro hpre
    simp [routerExtract, hfm, hpre]
  · intro hpre
    simp [routerExtract, hfm, hpre]

/-- Witness for C1 at the concrete source `hello` and the one-adapter set
`[noneA]` that accepts nothing. -/
theorem claim_C1_router_fallback_witness :
    routerExtract [noneA] "hello" =
      Except.error (ExtractErr.valueError (noAdapterMsg [noneA] "hello"))
    ∧ containsSub (noAdapterMsg [noneA] "hello") "none" = true := by
  have h := claim_C1_router_fallback [noneA] "hello"
    (by intro a ha; rw [List.mem_singleton] at ha; subst ha; rfl)
  constructor
  · have h1 := h.1 (by decide)
    rw [h1]
    rfl
  · exact h.2.2.2 noneA (by simp)

/-! ## Claim C2 — sequential, order-preserving, all-or-nothing batches -/

theorem extract_many_err (adapters : List Adapter) (pre : List String) :
    ∀ (post : List String) (s : String) (e : ExtractErr),
      (∀ p ∈ pre, ∃ c, routerExtract adapters p = Except.ok c) →
      routerExtract adapters s = Except.error e →
      extract_many adapters (pre ++ s :: post) = Except.error e := by
  induction pre with
  | nil =>
    intro post s e _ hs
    simp [extract_many, hs]
  | cons p ps ih =>
    intro post s e hpre hs
    obtain ⟨c, hc⟩ := hpre p (by simp)
    have hrest := ih post s e (fun q hq => hpre q (by simp [hq])) hs
    simp [extract_many, hc, hrest]

theorem extract_many_ok (adapters : List Adapter) (sources : List String)
    (h : ∀ s ∈ sources, ∃ c, routerExtract adapters s = Except.ok c) :
    ∃ results, extract_many adapters sources = Except.ok results ∧
      results.length = sources.length ∧
      ∀ (i : Nat) (hi : i < sources.length) (hr : i < results.length),
        routerExtract adapters (sources.get ⟨i, hi⟩) = Except.ok (results.get ⟨i, hr⟩) := by
  induction sources with
  | nil =>
    refine ⟨[], rfl, rfl, ?_⟩
    intro i hi hr
    exact absurd hi (by simp)
  | cons s ss ih =>
    obtain ⟨c, hc⟩ := h s (by simp)
    obtain ⟨cs, hcs, hlen, hidx⟩ := ih (fun t ht => h t (by simp [ht]))
    refine ⟨c :: cs, by simp [extract_many, hc, hcs], by simp [hlen], ?_⟩
    intro i hi hr
    cases i with
    | zero => simpa using hc
    | succ j =>
      have hj : j < ss.length := by simpa using hi
      have hj2 : j < cs.length := by simpa using hr
      simpa using hidx j hj hj2

/-- Claim C2: `SourceRouter.extract_many` handles the sources strictly in
input order; when every per-source extraction succeeds it returns exactly
one envelope per source with the i-th output produced from the i-th input,
and when the first failing source fails with `e` the whole batch returns
`e` and no envelopes at all. -/
theorem claim_C2_extract_many (adapters : List Adapter) (sources : List String) :
    (∀ (pre post : List String) (s : String) (e : ExtractErr),
      sources = pre ++ s :: post →
      (∀ p ∈ pre, ∃ c, routerExtract adapters p = Except.ok c) →
      routerExtract adapters s = Except.error e →
      extract_many adapters sources = Except.error e)
    ∧ ((∀ s ∈ sources, ∃ c, routerExtract adapters s = Except.ok c) →
      ∃ results, extract_many adapters sources = Except.ok results ∧
        results.length = sources.length ∧
        ∀ (i : Nat) (hi : i < sources.length) (hr : i < results.length),
          routerExtract adapters (sources.get ⟨i, hi⟩) = Except.ok (results.get ⟨i, hr⟩)) := by
  constructor
  · intro pre post s e hsrc hpre hs
    subst hsrc
    exact extract_many_err adapters pre post s e hpre hs
  · exact extract_many_ok adapters sources

/-- Witness for C2: with the adapter set `[okA]`, the batch
`[ok1, zz]` aborts with the no-adapter error of `zz`, returning no
envelopes. -/
theorem claim_C2_extract_many_witness :
    extract_many [okA] ["ok1", "zz"] =
      Except.error (ExtractErr.valueError (noAdapterMsg [okA] "zz")) := by
  refine (claim_C2_extract_many [okA] ["ok1", "zz"]).1 ["ok1"] [] "zz" _ rfl ?_ ?_
  · intro p hp
    rw [List.mem_singleton] at hp
    subst hp
    exact ⟨_, rfl⟩
  · rfl

/-! ## Claim C3 — empty-text envelopes -/

theorem scrapeLoop_blocks (env : SearchEnv) (urls : List String) (t : String)
    (ht : t ∈ scrapeLoop env urls) : ∃ c, t = scrapeBlock c := by
  induction urls with
  | nil => simp [scrapeLoop] at ht
  | cons u us ih =>
    simp only [scrapeLoop] at ht
    cases hw : web_extract env.webEnv u with
    | ok c =>
      rw [hw] at ht
      rcases List.mem_cons.mp ht with rfl | hmem
      · exact ⟨c, rfl⟩
      · exact ih hmem
    | error e =>
      rw [hw] at ht
      exact ih ht

theorem joinSep_head_data (sep t : String) (ts : List String) :
    ∃ rest, (joinSep sep (t :: ts)).data = t.data ++ rest := by
  cases ts with
  | nil => exact ⟨[], by simp [joinSep]⟩
  | cons u us =>
    exact ⟨(sep ++ joinSep sep (u :: us)).data, by simp [joinSep, strData_append]⟩

theorem scrapeBlock_data (c : SourceContent) :
    ∃ r, (scrapeBlock c).data = '[' :: r := by
  refine ⟨(c.title ++ "]\n" ++ c.source_url ++ "\n" ++ strTake c.text 3000).data, ?_⟩
  simp [scrapeBlock, strData_append]

/-- Amended C3: the Web and WebSearch adapters indeed never return an
envelope with empty text (they raise instead); the original claim fails for
LocalFileAdapter, whose raw-read branch happily returns the empty string
read from an empty file (see the counterexample). -/
theorem claim_C3_amended :
    (∀ (env : WebEnv) (s : String) (c : SourceContent),
      web_extract env s = Except.ok c → c.text ≠ "")
    ∧ (∀ (env : SearchEnv) (s : String) (c : SourceContent),
      ws_extract env s = Except.ok c → c.text ≠ "") := by
  constructor
  · intro env s c h
    simp only [web_extract] at h
    split at h
    · simp at h
    · split at h
      · simp at h
      · split at h
        · simp at h
        · split at h
          · simp at h
          · split at h
            · simp at h
            · rename_i hne
              cases h
              exact hne
  · intro env s c h
    simp only [ws_extract] at h
    split at h
    · exact Except.noConfusion h
    · rename_i urls heq
      split at h
      · exact Except.noConfusion h
      · rename_i hne
        cases h
        show joinSep "\n\n---\n\n" (scrapeLoop env (urls.take env.max_results)) ≠ ""
        cases hl : scrapeLoop env (urls.take env.max_results) with
        | nil => exact absurd hl hne
        | cons t ts =>
          have hmem : t ∈ scrapeLoop env (urls.take env.max_results) := by
            rw [hl]; exact List.mem_cons_self t ts
          obtain ⟨c', rfl⟩ := scrapeLoop_blocks env _ t hmem
          obtain ⟨rest, hdata⟩ := joinSep_head_data "\n\n---\n\n" (scrapeBlock c') ts
          obtain ⟨r, hb⟩ := scrapeBlock_data c'
          intro hcontra
          have hd : (joinSep "\n\n---\n\n" (scrapeBlock c' :: ts)).data = [] := by
            rw [hcontra]
          rw [hdata, hb] at hd
          simp at hd

/-- Witness for the amended C3 at concrete successful Web and WebSearch
extractions. -/
theorem claim_C3_amended_witness :
    web_extract genericWebEnv "https://e.com" =
      Except.ok (SourceContent.mk "https://e.com" "https://e.com" "https://e.com" "web" [])
    ∧ ("https://e.com" : String) ≠ ""
    ∧ ws_extract stubSE "search:q" =
      Except.ok (SourceContent.mk "[u1]\nu1\nu1" "검색: q" "search:q" "web_search"
        [("query", MetaVal.s "q"), ("results_count", MetaVal.n 1)])
    ∧ ("[u1]\nu1\nu1" : String) ≠ "" := by
  refine ⟨rfl, ?_, rfl, ?_⟩
  · exact claim_C3_amended.1 genericWebEnv "https://e.com" _ rfl
  · exact claim_C3_amended.2 stubSE "search:q" _ rfl

/-- Counterexample to C3 as stated: extracting the existing but empty file
`empty.txt` succeeds and returns an envelope whose text is the empty
string. -/
theorem claim_C3_counterexample :
    lf_extract emptyFileLE "empty.txt" =
      Except.ok (SourceContent.mk "" "empty.txt" "file://empty.txt" "local_file" []) := by
  rfl

/-! ## Claim C4 — the WebSearch five-URL scenario -/

/-- The outcome of scraping one search result: the formatted block on
success, nothing on a swallowed failure. -/
def scrapeOne (env : SearchEnv) (url : String) : Option String :=
  match web_extract env.webEnv url with
  | Except.ok c => some (scrapeBlock c)
  | Except.error _ => none

/-- The blocks obtained from the attempted (capped) URL list. -/
def attemptedTexts (env : SearchEnv) (urls : List String) : List String :=
  (urls.take env.max_results).filterMap (scrapeOne env)

theorem scrapeLoop_eq_filterMap (env : SearchEnv) (urls : List String) :
    scrapeLoop env urls = urls.filterMap (scrapeOne env) := by
  induction urls with
  | nil => rfl
  | cons u us ih =>
    simp only [scrapeLoop, scrapeOne, List.filterMap_cons]
    cases web_extract env.webEnv u with
    | ok c => simp [ih]
    | error e => simp [ih]

/-- Counterexample to C4 as stated: with `max_results = 3` and a provider
returning five URLs of which the second fails to scrape (all others would
succeed), only `u1 u2 u3` are attempted and two blocks survive, so the
`results_count` of the envelope is 2, not 3. -/
theorem claim_C4_counterexample :
    ws_extract fiveUrlSE "search:q" =
      Except.ok (SourceContent.mk "[u1]\nu1\nu1\n\n---\n\n[u3]\nu3\nu3" "검색: q"
        "search:q" "web_search"
        [("query", MetaVal.s "q"), ("results_count", MetaVal.n 2)]) := by
  rfl

/-- Amended C4: only the first `max_results` URLs of the provider list
are attempted; each failing scrape is skipped; `extract` fails exactly when
zero attempted scrapes yield usable text, and otherwise returns one
envelope whose `results_count` is the number of successful scrapes (2 in
the five-URL scenario above) and whose text joins their budget-capped
blocks with the separator. -/
theorem claim_C4_amended (env : SearchEnv) (source : String) (urls : List String)
    (hs : ws_search env (strTrim (strDrop source 7)) = Except.ok urls) :
    (attemptedTexts env urls = [] →
      ws_extract env source =
        Except.error (ExtractErr.valueError
          ("No results found for: " ++ strTrim (strDrop source 7))))
    ∧ (attemptedTexts env urls ≠ [] →
      ws_extract env source =
        Except.ok (SourceContent.mk (joinSep "\n\n---\n\n" (attemptedTexts env urls))
          ("검색: " ++ strTrim (strDrop source 7))
          ("search:" ++ strTrim (strDrop source 7)) "web_search"
          [("query", MetaVal.s (strTrim (strDrop source 7))),
           ("results_count", MetaVal.n (attemptedTexts env urls).length)])) := by
  have hsl : scrapeLoop env (urls.take env.max_results) = attemptedTexts env urls :=
    scrapeLoop_eq_filterMap env (urls.take env.max_results)
  constructor
  · intro h
    simp only [ws_extract, hs]
    rw [hsl, if_pos h]
  · intro h
    simp only [ws_extract, hs]
    rw [hsl, if_neg h]

/-- Witness for the amended C4 at the concrete five-URL scenario. -/
theorem claim_C4_amended_witness :
    ws_extract fiveUrlSE "search:q" =
      Except.ok (SourceContent.mk (joinSep "\n\n---\n\n" ["[u1]\nu1\nu1", "[u3]\nu3\nu3"])
        ("검색: " ++ "q") ("search:" ++ "q") "web_search"
        [("query", MetaVal.s "q"), ("results_count", MetaVal.n 2)]) :=
  (claim_C4_amended fiveUrlSE "search:q" ["u1", "u2", "u3", "u4", "u5"] rfl).2 (by decide)

/-! ## Claim C5 — the empty source string -/

/-- Counterexample to C5 as stated: with the built-in adapters (over stub
environments), the empty string matches no adapter directly, starts with
none of the heuristic prefixes, is rewritten to `search:` and IS dispatched
to WebSearchAdapter — here even returning an envelope instead of raising
the no-adapter error. -/
theorem claim_C5_counterexample :
    routerExtract (builtins stubSE genericWebEnv stubYE stubLE) "" =
      Except.ok (SourceContent.mk "[u1]\nu1\nu1" "검색: " "search:" "web_search"
        [("query", MetaVal.s ""), ("results_count", MetaVal.n 1)]) := by
  rfl

/-- Amended C5: the empty source matches no built-in adapter directly (in
particular not LocalFile, provided no file named by the empty string
exists, as `os.path.isfile("")` is false), but instead of raising the
no-adapter error the Router rewrites it to `search:` and dispatches it to
WebSearchAdapter, whose `can_handle` accepts every `search:`-prefixed
string. -/
theorem claim_C5_amended (se : SearchEnv) (we : WebEnv) (ye : YtEnv) (le : LocalEnv)
    (h : "" ∉ le.files) :
    firstMatch (builtins se we ye le) "" = none
    ∧ routerExtract (builtins se we ye le) "" = ws_extract se "search:" := by
  have hlf : lf_can_handle le "" = decide ("" ∈ le.files) := rfl
  have hlf2 : lf_can_handle le "" = false := by rw [hlf, decide_eq_false h]
  have hws : ws_can_handle "" = false := rfl
  have hweb : web_can_handle "" = false := rfl
  have hyt : yt_can_handle "" = false := rfl
  have hfm : firstMatch (builtins se we ye le) "" = none := by
    simp [builtins, firstMatch, hws, hweb, hyt, hlf2]
  refine ⟨hfm, ?_⟩
  have hpre : startsKnownShape "" = false := rfl
  have hws2 : ws_can_handle "search:" = true := rfl
  have hfm2 : firstMatch (builtins se we ye le) "search:" =
      some (Adapter.mk "web_search" ws_can_handle (ws_extract se)) := by
    simp [builtins, firstMatch, hws2]
  simp [routerExtract, hfm, hpre, hfm2]

/-- Witness for the amended C5 at the stub environments. -/
theorem claim_C5_amended_witness :
    firstMatch (builtins stubSE genericWebEnv stubYE stubLE) "" = none
    ∧ routerExtract (builtins stubSE genericWebEnv stubYE stubLE) "" =
      ws_extract stubSE "search:" :=
  claim_C5_amended stubSE genericWebEnv stubYE stubLE (by simp [stubLE])

/-! ## Claim C6 — mutual exclusivity of the recognizers -/

/-- How many probes of an adapter list accepted. -/
def countTrue (l : List Bool) : Nat := (l.filter (fun b => b)).length

theorem listPre_head_eq (a b : Char) (p l : List Char)
    (h : listPre (a :: p) (b :: l) = true) : a = b := by
  simp only [listPre, Bool.and_eq_true, beq_iff_eq] at h
  exact h.1

theorem listPre_false_of_head_ne (a b : Char) (p l : List Char) (hne : a ≠ b) :
    listPre (a :: p) (b :: l) = false := by
  simp [listPre, hne]

theorem yt_not_web (s : String) (h : yt_can_handle s = true) : web_can_handle s = false := by
  simp only [yt_can_handle, Bool.or_eq_true] at h
  rcases h with (h | h) | h
  · have h1 : containsSub s "youtube.com" = true :=
      containsSub_mono s "youtube.com" "youtube.com/watch?v=" (by decide) h
    simp [web_can_handle, h1]
  · have h1 : containsSub s "youtu.be" = true :=
      containsSub_mono s "youtu.be" "youtu.be/" (by decide) h
    simp [web_can_handle, h1]
  · have h1 : containsSub s "youtube.com" = true :=
      containsSub_mono s "youtube.com" "youtube.com/shorts/" (by decide) h
    simp [web_can_handle, h1]

theorem ws_not_http (s : String) (h : ws_can_handle s = true) :
    strStarts s "http://" = false ∧ strStarts s "https://" = false := by
  obtain ⟨d⟩ := s
  cases d with
  | nil => exact absurd h (by decide)
  | cons c cs =>
    have h2 : listPre "search:".data (lowerChar c :: cs.map lowerChar) = true := h
    have hc : 's' = lowerChar c := listPre_head_eq _ _ _ _ h2
    have hcne : c ≠ 'h' := by
      intro hceq
      rw [hceq] at hc
      exact absurd hc (by decide)
    constructor
    · exact listPre_false_of_head_ne 'h' c _ _ (fun he => hcne he.symm)
    · exact listPre_false_of_head_ne 'h' c _ _ (fun he => hcne he.symm)

theorem ws_false_of_http (s : String)
    (hh : strStarts s "http://" = true ∨ strStarts s "https://" = true) :
    ws_can_handle s = false := by
  cases hq : ws_can_handle s with
  | false => rfl
  | true =>
    obtain ⟨h1, h2⟩ := ws_not_http s hq
    rcases hh with hh | hh
    · simp [h1] at hh
    · simp [h2] at hh

theorem lf_not_http (env : LocalEnv) (s : String) (h : lf_can_handle env s = true) :
    (strStarts s "http://" || strStarts s "https://") = false := by
  cases hcond : (strStarts s "http://" || strStarts s "https://") with
  | false => rfl
  | true => simp [lf_can_handle, hcond] at h

/-- Counterexample to C6 as stated: the search query `search:youtu.be/abc`
is claimed both by WebSearch (prefix) and by YouTube (substring regex), and
the search query `search:report.pdf` both by WebSearch and by LocalFile
(recognized extension). -/
theorem claim_C6_counterexample :
    (ws_can_handle "search:youtu.be/abc" = true ∧ yt_can_handle "search:youtu.be/abc" = true)
    ∧ (ws_can_handle "search:report.pdf" = true ∧
        lf_can_handle stubLE "search:report.pdf" = true) := by
  decide

/-- Amended C6: at most one built-in recognizer accepts a family input,
provided the input does not embed a YouTube pattern as a substring (the
YouTube regex is searched anywhere in the string), and a search query is
additionally required not to end in a recognized document extension nor to
name an existing file, since LocalFile would claim those too. -/
theorem claim_C6_amended (env : LocalEnv) (s : String)
    (hcase :
      (yt_can_handle s = true ∧
        (strStarts s "http://" = true ∨ strStarts s "https://" = true))
      ∨ web_can_handle s = true
      ∨ (ws_can_handle s = true ∧ yt_can_handle s = false ∧
          extOf (strLower s) ∉ localExtensions ∧ s ∉ env.files)
      ∨ (lf_can_handle env s = true ∧ yt_can_handle s = false ∧ ws_can_handle s = false)) :
    countTrue [ws_can_handle s, web_can_handle s, yt_can_handle s, lf_can_handle env s] ≤ 1 := by
  rcases hcase with ⟨hyt, hhttp⟩ | hweb | ⟨hws, hyt, hext, hfile⟩ | ⟨hlf, hyt, hws⟩
  · have hw := yt_not_web s hyt
    have hws : ws_can_handle s = false := ws_false_of_http s hhttp
    have hlf : lf_can_handle env s = false := by
      rcases hhttp with hh | hh
      · simp [lf_can_handle, hh]
      · simp [lf_can_handle, hh]
    rw [hws, hw, hyt, hlf]
    decide
  · have hparts := Bool.and_eq_true_iff.mp hweb
    have hhttp : strStarts s "http://" = true ∨ strStarts s "https://" = true :=
      Bool.or_eq_true_iff.mp hparts.1
    have hws : ws_can_handle s = false := ws_false_of_http s hhttp
    have hyt : yt_can_handle s = false := by
      cases hq : yt_can_handle s with
      | false => rfl
      | true =>
        have hcontra := yt_not_web s hq
        simp [hweb] at hcontra
    have hlf : lf_can_handle env s = false := by
      rcases hhttp with hh | hh
      · simp [lf_can_handle, hh]
      · simp [lf_can_handle, hh]
    rw [hws, hweb, hyt, hlf]
    decide
  · obtain ⟨h1, h2⟩ := ws_not_http s hws
    have hweb : web_can_handle s = false := by
      simp [web_can_handle, h1, h2]
    have hlf : lf_can_handle env s = false := by
      simp [lf_can_handle, h1, h2, hext, hfile]
    rw [hws, hweb, hyt, hlf]
    decide
  · have hcond := lf_not_http env s hlf
    have hweb : web_can_handle s = false := by
      unfold web_can_handle
      rw [hcond]
      rfl
    rw [hws, hweb, hyt, hlf]
    decide

/-- Witness for the amended C6 at a concrete YouTube watch URL. -/
theorem claim_C6_amended_witness :
    countTrue [ws_can_handle "https://www.youtube.com/watch?v=abc",
               web_can_handle "https://www.youtube.com/watch?v=abc",
               yt_can_handle "https://www.youtube.com/watch?v=abc",
               lf_can_handle stubLE "https://www.youtube.com/watch?v=abc"] ≤ 1 :=
  claim_C6_amended stubLE "https://www.youtube.com/watch?v=abc" (Or.inl (by decide))

/-! ## Claim C7 — purity of the capability probes -/

/-- Counterexample to C7 as stated: `LocalFileAdapter.can_handle` consults
`os.path.isfile`, so the same string `notes` gets different answers under
two file-system states. -/
theorem claim_C7_counterexample :
    lf_can_handle stubLE "notes" = false ∧ lf_can_handle notesLE "notes" = true := by
  decide

/-- Amended C7: the WebSearch, Web and YouTube probes are pure functions of
the string (in this embedding they take nothing else); the LocalFile probe is
file-system independent exactly on strings with a recognized extension or
an `http(s)` prefix, and on all other strings it equals the `os.path.isfile`
answer of the current file-system state. -/
theorem claim_C7_amended :
    (∀ (e1 e2 : LocalEnv) (s : String),
      (extOf (strLower s) ∈ localExtensions ∨ strStarts s "http://" = true ∨
        strStarts s "https://" = true) →
      lf_can_handle e1 s = lf_can_handle e2 s)
    ∧ (∀ (env : LocalEnv) (s : String),
      strStarts s "http://" = false → strStarts s "https://" = false →
      extOf (strLower s) ∉ localExtensions →
      lf_can_handle env s = decide (s ∈ env.files)) := by
  constructor
  · intro e1 e2 s hcase
    rcases hcase with hext | hh | hh
    · cases hcond : (strStarts s "http://" || strStarts s "https://") with
      | true => simp [lf_can_handle, hcond]
      | false => simp [lf_can_handle, hcond, hext]
    · simp [lf_can_handle, hh]
    · simp [lf_can_handle, hh]
  · intro env s h1 h2 hext
    simp [lf_can_handle, h1, h2, hext]

/-- Witness for the amended C7: a `.pdf` path probes identically under two
file systems, and an extension-less path probes exactly as file existence. -/
theorem claim_C7_amended_witness :
    lf_can_handle stubLE "a.pdf" = lf_can_handle notesLE "a.pdf"
    ∧ lf_can_handle notesLE "notes" = decide ("notes" ∈ notesLE.files) :=
  ⟨claim_C7_amended.1 stubLE notesLE "a.pdf" (Or.inl (by decide)),
   claim_C7_amended.2 notesLE "notes" (by decide) (by decide) (by decide)⟩

/-! ## Claim C8 — YouTube metadata vs subtitle failure -/

/-- Claim C8: a failed metadata invocation (non-zero yt-dlp exit) degrades
to using the raw source URL as the envelope title while extraction
proceeds; any subtitle failure is fatal; and when no `.vtt` file
materializes the error is the no-content `ValueError` whose message
contains the URL. -/
theorem claim_C8_youtube (env : YtEnv) (url : String) :
    (∀ t, env.infoResult url = none → yt_get_subtitles env url = Except.ok t →
      yt_extract env url =
        Except.ok (SourceContent.mk t url url "youtube"
          [("duration", MetaVal.null), ("channel", MetaVal.null),
           ("upload_date", MetaVal.null)]))
    ∧ (∀ e, yt_get_subtitles env url = Except.error e →
      yt_extract env url = Except.error e)
    ∧ ((env.subFiles url).all (fun f => !(strEnds f ".vtt")) = true →
      yt_get_subtitles env url =
        Except.error (ExtractErr.valueError ("No subtitles found for: " ++ url))
      ∧ containsSub ("No subtitles found for: " ++ url) url = true) := by
  refine ⟨?_, ?_, ?_⟩
  · intro t hinfo hsub
    simp [yt_extract, yt_get_info, hinfo, hsub]
  · intro e hsub
    simp [yt_extract, hsub]
  · intro hall
    constructor
    · have hfind : (env.subFiles url).find? (fun f => strEnds f ".vtt") = none := by
        rw [List.find?_eq_none]
        intro x hx
        have := List.all_eq_true.mp hall x hx
        simp at this
        simp [this]
      simp [yt_get_subtitles, hfind]
    · exact containsSub_right "No subtitles found for: " url

/-- Witness for C8: with no `.vtt` produced the extraction fails with the
URL-bearing no-content error, and with an auto-caption `.vtt` present but
failing metadata it succeeds with the URL as title. -/
theorem claim_C8_youtube_witness :
    yt_extract noVttYE "https://www.youtube.com/watch?v=abc123" =
      Except.error (ExtractErr.valueError
        ("No subtitles found for: " ++ "https://www.youtube.com/watch?v=abc123"))
    ∧ containsSub ("No subtitles found for: " ++ "https://www.youtube.com/watch?v=abc123")
        "https://www.youtube.com/watch?v=abc123" = true
    ∧ yt_extract autoSubYE "https://www.youtube.com/watch?v=abc123" =
      Except.ok (SourceContent.mk "hello\nworld" "https://www.youtube.com/watch?v=abc123"
        "https://www.youtube.com/watch?v=abc123" "youtube"
        [("duration", MetaVal.null), ("channel", MetaVal.null),
         ("upload_date", MetaVal.null)]) := by
  have h1 := claim_C8_youtube noVttYE "https://www.youtube.com/watch?v=abc123"
  have h2 := claim_C8_youtube autoSubYE "https://www.youtube.com/watch?v=abc123"
  obtain ⟨hsub, hmsg⟩ := h1.2.2 (by decide)
  exact ⟨h1.2.1 _ hsub, hmsg, h2.1 "hello\nworld" rfl rfl⟩

/-! ## Claim C9 — VTT caption parsing -/

/-- The cleaning of one raw VTT line as described by the spec: strip
whitespace, drop timestamp/header/blank lines, strip markup, drop lines
that became empty. -/
def cleanOf (l : String) : Option String :=
  let line := strTrim l
  if skipLine line then none
  else
    let c := stripTags line
    if c = "" then none else some c

/-- All kept cleaned lines, in file order and with repetitions. -/
def vttCleanedLines (lines : List String) : List String := lines.filterMap cleanOf

/-- First-occurrence deduplication with an explicit seen set. -/
def dedupFirstAux (seen : List String) : List String → List String
  | [] => []
  | x :: xs => if x ∈ seen then dedupFirstAux seen xs else x :: dedupFirstAux (x :: seen) xs

/-- First-occurrence deduplication. -/
def dedupFirst (l : List String) : List String := dedupFirstAux [] l

/-- The spec phrasing directly: emit each distinct line once, at its
first occurrence. -/
def firstOccurrenceOrder (l : List String) : List String :=
  l.foldl (fun acc x => if x ∈ acc then acc else acc ++ [x]) []

theorem parseVttAux_eq (ls : List String) :
    ∀ seen, parseVttAux seen ls = dedupFirstAux seen (vttCleanedLines ls) := by
  induction ls with
  | nil => intro seen; rfl
  | cons l rest ih =>
    intro seen
    by_cases h1 : skipLine (strTrim l) = true
    · simp [parseVttAux, vttCleanedLines, List.filterMap_cons, cleanOf, h1, ih seen,
        vttCleanedLines]
    · by_cases h2 : stripTags (strTrim l) = ""
      · simp [parseVttAux, vttCleanedLines, List.filterMap_cons, cleanOf, h1, h2, ih seen]
      · by_cases h3 : stripTags (strTrim l) ∈ seen
        · simp [parseVttAux, vttCleanedLines, List.filterMap_cons, cleanOf, h1, h2, h3,
            dedupFirstAux, ih seen]
        · simp [parseVttAux, vttCleanedLines, List.filterMap_cons, cleanOf, h1, h2, h3,
            dedupFirstAux, ih (stripTags (strTrim l) :: seen)]

theorem dedupFirstAux_mem (l : List String) :
    ∀ seen x, x ∈ dedupFirstAux seen l ↔ (x ∈ l ∧ x ∉ seen) := by
  induction l with
  | nil => intro seen x; simp [dedupFirstAux]
  | cons y ys ih =>
    intro seen x
    by_cases hy : y ∈ seen
    · simp only [dedupFirstAux, if_pos hy, ih, List.mem_cons]
      constructor
      · rintro ⟨ha, hb⟩; exact ⟨Or.inr ha, hb⟩
      · rintro ⟨rfl | ha, hb⟩
        · exact absurd hy hb
        · exact ⟨ha, hb⟩
    · simp only [dedupFirstAux, if_neg hy, List.mem_cons, ih]
      constructor
      · rintro (rfl | ⟨ha, hb⟩)
        · exact ⟨Or.inl rfl, hy⟩
        · refine ⟨Or.inr ha, fun hc => hb (by simp [hc])⟩
      · rintro ⟨rfl | ha, hb⟩
        · exact Or.inl rfl
        · by_cases hxy : x = y
          · exact Or.inl hxy
          · exact Or.inr ⟨ha, by simp [hxy, hb]⟩

theorem dedupFirstAux_nodup (l : List String) : ∀ seen, (dedupFirstAux seen l).Nodup := by
  induction l with
  | nil => intro seen; simp [dedupFirstAux]
  | cons y ys ih =>
    intro seen
    by_cases hy : y ∈ seen
    · simpa [dedupFirstAux, hy] using ih seen
    · simp only [dedupFirstAux, if_neg hy, List.nodup_cons]
      refine ⟨?_, ih (y :: seen)⟩
      rw [dedupFirstAux_mem]
      rintro ⟨_, hb⟩
      exact hb (by simp)

theorem dedupFirstAux_sublist (l : List String) :
    ∀ seen, List.Sublist (dedupFirstAux seen l) l := by
  induction l with
  | nil => intro seen; simp [dedupFirstAux]
  | cons y ys ih =>
    intro seen
    by_cases hy : y ∈ seen
    · simpa [dedupFirstAux, hy] using (ih seen).cons y
    · simpa [dedupFirstAux, hy] using (ih (y :: seen)).cons₂ y

theorem foldl_dedup (l : List String) :
    ∀ (acc seen : List String), (∀ x, x ∈ acc ↔ x ∈ seen) →
      l.foldl (fun acc x => if x ∈ acc then acc else acc ++ [x]) acc =
        acc ++ dedupFirstAux seen l := by
  induction l with
  | nil => intro acc seen _; simp [dedupFirstAux]
  | cons y ys ih =>
    intro acc seen h
    simp only [List.foldl_cons]
    by_cases hy : y ∈ seen
    · rw [if_pos ((h y).mpr hy), ih acc seen h]
      simp [dedupFirstAux, hy]
    · rw [if_neg (fun hacc => hy ((h y).mp hacc))]
      have h2 : ∀ x, x ∈ acc ++ [y] ↔ x ∈ y :: seen := by
        intro x
        simp [List.mem_append, List.mem_cons, h x, or_comm]
      rw [ih (acc ++ [y]) (y :: seen) h2]
      simp [dedupFirstAux, hy, List.append_assoc]

/-- Claim C9: `_parse_vtt` drops timestamp lines (containing `-->`), the
`WEBVTT`/`Kind:`/`Language:` headers and blank lines, strips markup tags
from each remaining (whitespace-stripped) line, and joins with newlines
each distinct cleaned line exactly once, in order of first occurrence:
the emitted list is nodup, a subsequence of the kept cleaned lines, covers
exactly their members, and equals the fold that appends each line only at
its first occurrence. -/
theorem claim_C9_parse_vtt (lines : List String) :
    parse_vtt lines = joinSep "\n" (dedupFirst (vttCleanedLines lines))
    ∧ dedupFirst (vttCleanedLines lines) = firstOccurrenceOrder (vttCleanedLines lines)
    ∧ (dedupFirst (vttCleanedLines lines)).Nodup
    ∧ List.Sublist (dedupFirst (vttCleanedLines lines)) (vttCleanedLines lines)
    ∧ (∀ x, x ∈ dedupFirst (vttCleanedLines lines) ↔ x ∈ vttCleanedLines lines) := by
  refine ⟨?_, ?_, dedupFirstAux_nodup _ _, dedupFirstAux_sublist _ _, ?_⟩
  · unfold parse_vtt dedupFirst
    rw [parseVttAux_eq]
  · unfold firstOccurrenceOrder dedupFirst
    rw [foldl_dedup _ [] [] (by simp)]
    simp
  · intro x
    rw [dedupFirst, dedupFirstAux_mem]
    simp

/-! ## Claim C10 — LocalFile on existing files with unrecognized extensions -/

/-- Counterexample to C10 as stated: a path for which `os.path.isfile` is
true (realizable via a directory named `http:`) but which starts with
`http://` is rejected by `can_handle` despite naming an existing file with
an unrecognized extension. -/
theorem claim_C10_counterexample :
    ("http://srv/f" ∈ httpFileLE.files) ∧ lf_can_handle httpFileLE "http://srv/f" = false := by
  decide

/-- Amended C10: for every existing file whose path does not start with
`http://` or `https://`, `can_handle` answers true even with an
unrecognized extension; and for every existing file whose extension is not
one of `.pdf .docx .doc .xlsx .csv`, `extract` performs the raw
errors-ignored text read and always succeeds, returning whatever (possibly
empty or lossy) text that read yields. -/
theorem claim_C10_amended :
    (∀ (env : LocalEnv) (s : String), s ∈ env.files →
      strStarts s "http://" = false → strStarts s "https://" = false →
      lf_can_handle env s = true)
    ∧ (∀ (env : LocalEnv) (s : String), s ∈ env.files →
      extOf (strLower s) ∉ ([".pdf", ".docx", ".doc", ".xlsx", ".csv"] : List String) →
      lf_extract env s =
        Except.ok (SourceContent.mk (env.rawRead s) (basenameStr s)
          ("file://" ++ env.abspath s) "local_file" [])) := by
  constructor
  · intro env s hmem h1 h2
    simp [lf_can_handle, h1, h2, hmem]
  · intro env s hmem hext
    have hex : s ∈ env.files ∨ s ∈ env.dirs := Or.inl hmem
    simp only [List.mem_cons, List.mem_singleton, not_or] at hext
    obtain ⟨h1, h2, h3, h4, h5⟩ := hext
    simp [lf_extract, hex, h1, h2, h3, h4, h5]

/-- Witness for the amended C10 at the extension-less existing file
`notes`. -/
theorem claim_C10_amended_witness :
    lf_can_handle notesLE "notes" = true
    ∧ lf_extract notesLE "notes" =
      Except.ok (SourceContent.mk (notesLE.rawRead "notes") (basenameStr "notes")
        ("file://" ++ notesLE.abspath "notes") "local_file" []) :=
  ⟨claim_C10_amended.1 notesLE "notes" (by decide) (by decide) (by decide),
   claim_C10_amended.2 notesLE "notes" (by decide) (by decide)⟩

end CAgent
